import Mathlib

/-!
Verification of the wallet-authentication core of the somnia-governance-engine
backend (src/backend/src/auth/signature_verification.rs and
src/backend/src/auth/wallet_auth.rs), as a shallow embedding in Lean 4.

Modelling conventions:
* Rust `String`/`&str` values are `List Char` (`RStr`); the Rust byte length
  `str::len` is `rustLen` (the sum of the UTF-8 sizes of the characters).
* `chrono::DateTime<Utc>` instants and `chrono::Duration` values are `Int`
  numbers of seconds (`Duration::hours 24 = 86400`, `Duration::seconds n = n`).
  The several `Utc::now()` calls inside one operation are modelled as a single
  `now` parameter of that operation.
* The two `HashMap`s behind `RwLock`s are association lists with at most one
  entry per key (`ainsert` replaces, like `HashMap::insert`); randomness
  (`rand::rng`, `uuid::Uuid::new_v4`) enters as explicit parameters.
* The secp256k1 public-key recovery (`hash_message`, `recover_ecdsa`,
  `public_key_to_address`) is a pure black box and is abstracted as a
  `RecoveryOracle` parameter; everything around it (hex decoding, the length
  check, `RecoveryId::from_u8_masked`, the scalar-range check performed by
  `RecoverableSignature::from_compact`) is modelled concretely.
-/

set_option autoImplicit false

/-- Rust strings are modelled as lists of characters. -/
abbrev RStr := List Char

/-- A 20-byte Ethereum address (`ethers::core::types::Address`), as its bytes. -/
abbrev Addr := List Nat

/-- Rust `str::len`: the UTF-8 byte length of a string. -/
def rustLen (s : RStr) : Nat := (s.map Char.utf8Size).sum

/-- Rust `char::is_ascii_hexdigit`: `0-9`, `a-f` or `A-F`. -/
def isAsciiHexDigit (c : Char) : Bool :=
  decide ((48 ≤ c.toNat ∧ c.toNat ≤ 57) ∨ (97 ≤ c.toNat ∧ c.toNat ≤ 102) ∨
    (65 ≤ c.toNat ∧ c.toNat ≤ 70))

/-- Value of one hex digit, `none` on a non-hex character. -/
def hexVal (c : Char) : Option Nat :=
  if 48 ≤ c.toNat ∧ c.toNat ≤ 57 then some (c.toNat - 48)
  else if 97 ≤ c.toNat ∧ c.toNat ≤ 102 then some (c.toNat - 87)
  else if 65 ≤ c.toNat ∧ c.toNat ≤ 70 then some (c.toNat - 55)
  else none

/-- `hex::decode`: succeeds iff the input has even length and only hex digits,
producing one byte per digit pair. -/
def hexDecode : RStr → Option (List Nat)
  | [] => some []
  | [_] => none
  | c1 :: c2 :: rest =>
    match hexVal c1, hexVal c2, hexDecode rest with
    | some hi, some lo, some bs => some ((16 * hi + lo) :: bs)
    | _, _, _ => none

/-- `s.strip_prefix("0x").unwrap_or(s)`: removes one leading `0x` if present. -/
def strip0x (s : RStr) : RStr :=
  if s.take 2 = ['0', 'x'] then s.drop 2 else s

/-- Big-endian interpretation of a byte list as a natural number. -/
def beNat (bs : List Nat) : Nat := bs.foldl (fun a b => 256 * a + b) 0

/-- The order of the secp256k1 group: signatures whose `r` or `s` is not below
this value are rejected by `RecoverableSignature::from_compact`. -/
def secpOrder : Nat :=
  115792089237316195423570985008687907852837564279074904382605163141518161494337

/-- The error type actually reached by this code:
`GovernanceError::InvalidSignature(String)` (src/backend/src/utils/errors.rs). -/
inductive GovernanceError where
  | invalidSignature (reason : RStr)
deriving DecidableEq

/-- The `thiserror` rendering of `GovernanceError::InvalidSignature`:
`"Invalid signature: {0}"`. -/
def renderError : GovernanceError → RStr
  | .invalidSignature reason => "Invalid signature: ".toList ++ reason

/-- Abstraction of the pure cryptographic core of `verify_signature`:
given the message text, the 64-byte compact `r ‖ s` signature data and the
(already masked) recovery id, it returns the Ethereum address obtained by
`hash_message`, `recover_ecdsa` and `public_key_to_address`, or `none` when
libsecp256k1 recovery fails (e.g. `r` is not the x-coordinate of a curve
point, or the recovered point is the point at infinity). -/
structure RecoveryOracle where
  recover : RStr → List Nat → Nat → Option Addr

def invalidHexMsg : RStr := "Invalid hex signature".toList
def wrongLengthMsg : RStr := "Signature must be 65 bytes".toList
def fromCompactMsg : RStr := "Invalid signature format".toList
def recoveryFailedMsg : RStr := "Failed to recover public key".toList

/-- `SignatureVerifier::verify_signature`
(src/backend/src/auth/signature_verification.rs, lines 21-55): hex-decode the
signature after stripping an optional `0x`; require exactly 65 bytes; mask the
final byte into a recovery id (`RecoveryId::from_u8_masked`, i.e. `byte & 3`);
build the recoverable signature (`from_compact` fails iff `r` or `s` is out of
scalar range); recover the signer and convert to an address. -/
def verify_signature (O : RecoveryOracle) (message signature : RStr) :
    Except GovernanceError Addr :=
  match hexDecode (strip0x signature) with
  | none => .error (.invalidSignature invalidHexMsg)
  | some signature_bytes =>
    if signature_bytes.length ≠ 65 then .error (.invalidSignature wrongLengthMsg)
    else
      let recovery_id := (signature_bytes.getD 64 0) % 4
      let signature_data := signature_bytes.take 64
      let r := beNat (signature_bytes.take 32)
      let s := beNat ((signature_bytes.drop 32).take 32)
      if secpOrder ≤ r ∨ secpOrder ≤ s then
        .error (.invalidSignature fromCompactMsg)
      else
        match O.recover message signature_data recovery_id with
        | none => .error (.invalidSignature recoveryFailedMsg)
        | some address => .ok address

/-- `SignatureVerifier::verify_signature_for_address`: recovers and compares,
propagating verification errors rather than coercing them to `false`. -/
def verify_signature_for_address (O : RecoveryOracle)
    (message signature : RStr) (expected_address : Addr) :
    Except GovernanceError Bool :=
  match verify_signature O message signature with
  | .error e => .error e
  | .ok recovered_address => .ok (decide (recovered_address = expected_address))

/-- Decidable prefix test on character lists (Rust pattern matching inside
`str::replace` / `str::contains`). -/
def isPfx : RStr → RStr → Bool
  | [], _ => true
  | _ :: _, [] => false
  | a :: as, b :: bs => decide (a = b) && isPfx as bs

/-- Rust `str::replace` for a nonempty pattern: scan left to right, replacing
each (non-overlapping) occurrence of `pat` by `rep`. (Rust's behaviour for an
empty pattern differs, but the only pattern used by this code is the literal
placeholder, which is nonempty.) -/
def replaceAll (pat rep : RStr) (s : RStr) : RStr :=
  match s with
  | [] => []
  | c :: rest =>
    if h : isPfx pat (c :: rest) = true ∧ pat ≠ [] then
      rep ++ replaceAll pat rep (List.drop pat.length (c :: rest))
    else
      c :: replaceAll pat rep rest
termination_by s.length
decreasing_by
  · have hp : 0 < pat.length := List.length_pos.mpr h.2
    simp only [List.length_drop, List.length_cons]
    omega
  · simp

/-- Rust `str::contains` for string patterns. -/
def containsSub (pat : RStr) : RStr → Bool
  | [] => decide (pat = [])
  | c :: rest => isPfx pat (c :: rest) || containsSub pat rest

/-- The literal placeholder `"{nonce}"` substituted by `create_sign_message`. -/
def noncePlaceholder : RStr := "\x7bnonce\x7d".toList

/-- `SignatureVerifier::create_sign_message`: literal text replacement of the
placeholder in the template, `template.replace("{nonce}", nonce)`. -/
def create_sign_message (nonce template : RStr) : RStr :=
  replaceAll noncePlaceholder nonce template

/-- One lowercase hex digit, as produced by Rust `format!("{:016x}", _)`. -/
def hexDigitChar (n : Nat) : Char :=
  match n with
  | 0 => '0' | 1 => '1' | 2 => '2' | 3 => '3' | 4 => '4'
  | 5 => '5' | 6 => '6' | 7 => '7' | 8 => '8' | 9 => '9'
  | 10 => 'a' | 11 => 'b' | 12 => 'c' | 13 => 'd' | 14 => 'e' | 15 => 'f'
  | _ => '0'

/-- Fixed-width lowercase hex rendering, most significant digit first. -/
def toHexFixed (k x : Nat) : RStr :=
  ((List.range k).reverse).map (fun i => hexDigitChar (x / 16 ^ i % 16))

/-- `SignatureVerifier::generate_nonce`: a random `u64` (modelled as the
explicit parameter `x`, reduced mod 2^64) rendered as `format!("{:016x}", _)`,
i.e. exactly 16 lowercase hex characters. -/
def generate_nonce (x : Nat) : RStr := toHexFixed 16 (x % 2 ^ 64)

def emptyMsgErr : RStr := "Message cannot be empty".toList
def tooLongMsgErr : RStr := "Message too long".toList

/-- `SignatureVerifier::validate_message`: reject the empty message and any
message whose byte length exceeds 1000; no cryptographic work. -/
def validate_message (message : RStr) : Except GovernanceError Unit :=
  if message = [] then .error (.invalidSignature emptyMsgErr)
  else if rustLen message > 1000 then .error (.invalidSignature tooLongMsgErr)
  else .ok ()

/-- `SignatureVerifier::is_valid_signature_format`: after stripping an optional
`0x`, the byte length is exactly 130 and every character is an ASCII hex
digit. -/
def is_valid_signature_format (signature : RStr) : Bool :=
  let sig := strip0x signature
  decide (rustLen sig = 130) && sig.all isAsciiHexDigit

/-- `normalize_address` (src/backend/src/auth/signature_verification.rs,
lines 133-136): `Address::from_str`, i.e. an optional `0x` prefix followed by
exactly 40 hex digits, decoded case-insensitively into 20 bytes. -/
def normalize_address (address : RStr) : Option Addr :=
  match hexDecode (strip0x address) with
  | some bs => if bs.length = 20 then some bs else none
  | none => none

/-- The default `auth.message_template` (src/backend/src/config/mod.rs). -/
def defaultTemplate : RStr :=
  "Sign this message to authenticate with Somnia Governance Engine: \x7bnonce\x7d".toList

/-- `AuthChallenge` (src/backend/src/auth/wallet_auth.rs, lines 11-18). -/
structure AuthChallenge where
  nonce : RStr
  message : RStr
  address : Addr
  created_at : Int
  expires_at : Int
deriving DecidableEq

/-- `AuthToken` (src/backend/src/auth/wallet_auth.rs, lines 20-26). -/
structure AuthToken where
  address : Addr
  issued_at : Int
  expires_at : Int
  nonce : RStr
deriving DecidableEq

/-- `AuthRequest` (src/backend/src/auth/wallet_auth.rs, lines 28-33). -/
structure AuthRequest where
  address : RStr
  message : RStr
  signature : RStr
deriving DecidableEq

/-- `ChallengeResponse` (src/backend/src/auth/wallet_auth.rs, lines 40-45). -/
structure ChallengeResponse where
  challenge : RStr
  message : RStr
  expires_at : Int
deriving DecidableEq

/-- `AuthResponse` (src/backend/src/auth/wallet_auth.rs, lines 47-54). -/
structure AuthResponse where
  success : Bool
  token : Option RStr
  address : Option Addr
  expires_at : Option Int
  error : Option RStr
deriving DecidableEq

/-- The two stores owned by `WalletAuthService`: the challenge map keyed by
address and the token map keyed by opaque token id. -/
structure AuthState where
  challenges : List (Addr × AuthChallenge)
  tokens : List (RStr × AuthToken)
deriving DecidableEq

/-- `HashMap::get`: first (unique) binding of a key. -/
def alookup {α β : Type} [DecidableEq α] : List (α × β) → α → Option β
  | [], _ => none
  | kv :: rest, a => if kv.1 = a then some kv.2 else alookup rest a

/-- `HashMap::remove`: drop the binding of a key. -/
def aremove {α β : Type} [DecidableEq α] (a : α) (m : List (α × β)) :
    List (α × β) :=
  m.filter (fun kv => decide (kv.1 ≠ a))

/-- `HashMap::insert`: bind a key, replacing any existing binding. -/
def ainsert {α β : Type} [DecidableEq α] (a : α) (b : β) (m : List (α × β)) :
    List (α × β) :=
  (a, b) :: aremove a m

/-- `HashMap::retain` with the sweep predicate `now <= entry.expires_at`
(`cleanup_expired_challenges` / `cleanup_expired_tokens`). -/
def sweepBy {α β : Type} (expiry : β → Int) (now : Int) (m : List (α × β)) :
    List (α × β) :=
  m.filter (fun kv => decide (now ≤ expiry kv.2))

/-- The `auth` section of the configuration (src/backend/src/config/mod.rs):
the message template and the challenge TTL in seconds (`signature_ttl : u64`,
default 300). -/
structure AuthConfig where
  message_template : RStr
  signature_ttl : Nat

/-- The value of a `u64` after `as i64` (two's-complement reinterpretation). -/
def i64ofU64 (n : Nat) : Int :=
  if n % 2 ^ 64 < 2 ^ 63 then ((n % 2 ^ 64 : Nat) : Int)
  else ((n % 2 ^ 64 : Nat) : Int) - 2 ^ 64

/-- The failure envelope built on every rejection path of `authenticate`:
`success = false`, no token/address/expiry, and the given error text. -/
def failResp (e : RStr) : AuthResponse :=
  AuthResponse.mk false none none none (some e)

def invalidAddressMsg : RStr := "Invalid address format".toList
def noChallengeMsg : RStr := "No challenge found for this address".toList
def challengeExpiredMsg : RStr := "Challenge expired".toList
def messageMismatchMsg : RStr := "Message does not match challenge".toList
def invalidSignatureMsg : RStr := "Invalid signature".toList

/-- The error text of `authenticate`'s `Err(e)` arm:
`format!("Signature verification failed: {}", e)`. -/
def verificationFailedMsg (e : GovernanceError) : RStr :=
  "Signature verification failed: ".toList ++ renderError e

/-- `WalletAuthService::create_challenge` (src/backend/src/auth/wallet_auth.rs,
lines 75-107): normalize the address; generate a nonce (randomness modelled by
`x`); render the message from the configured template; validate it; store the
challenge with `expires_at = now + signature_ttl`, replacing any prior
challenge of the same address; then sweep expired challenges. Errors occur
before any store is touched, so the state component is returned unchanged on
the error paths. -/
def create_challenge (cfg : AuthConfig) (x : Nat) (now : Int) (st : AuthState)
    (address : RStr) : AuthState × Except GovernanceError ChallengeResponse :=
  match normalize_address address with
  | none => (st, .error (.invalidSignature invalidAddressMsg))
  | some addr =>
    let nonce := generate_nonce x
    let message := create_sign_message nonce cfg.message_template
    match validate_message message with
    | .error e => (st, .error e)
    | .ok _ =>
      let expires_at := now + i64ofU64 cfg.signature_ttl
      let challenge := AuthChallenge.mk nonce message addr now expires_at
      let challenges1 := ainsert addr challenge st.challenges
      let challenges2 := sweepBy AuthChallenge.expires_at now challenges1
      (AuthState.mk challenges2 st.tokens,
        .ok (ChallengeResponse.mk nonce message expires_at))

/-- Everything `authenticate` does before its first store write on the success
path (src/backend/src/auth/wallet_auth.rs, lines 110-168): normalize the
address, read and clone the stored challenge (one read-lock acquisition),
check expiry (deleting a stale challenge), compare the message, and run the
lock-free signature recovery. Returns either the verified (address, challenge)
pair, ready for the commit writes, or the final failure response. -/
def authChecks (O : RecoveryOracle) (now : Int) (st : AuthState)
    (req : AuthRequest) : AuthState × (Addr × AuthChallenge ⊕ AuthResponse) :=
  match normalize_address req.address with
  | none => (st, .inr (failResp invalidAddressMsg))
  | some addr =>
    match alookup st.challenges addr with
    | none => (st, .inr (failResp noChallengeMsg))
    | some challenge =>
      if challenge.expires_at < now then
        (AuthState.mk (aremove addr st.challenges) st.tokens,
          .inr (failResp challengeExpiredMsg))
      else if req.message ≠ challenge.message then
        (st, .inr (failResp messageMismatchMsg))
      else
        match verify_signature_for_address O req.message req.signature addr with
        | .ok true => (st, .inl (addr, challenge))
        | .ok false => (st, .inr (failResp invalidSignatureMsg))
        | .error e => (st, .inr (failResp (verificationFailedMsg e)))

/-- The store writes of `authenticate`'s success path
(src/backend/src/auth/wallet_auth.rs, lines 169-198): store the new token
under the fresh id (`uuid`), with `expires_at = now + Duration::hours(24)`;
remove the consumed challenge; sweep expired tokens; report success. -/
def authCommit (uuid : RStr) (now : Int) (st : AuthState) (addr : Addr)
    (challenge : AuthChallenge) : AuthState × AuthResponse :=
  let expires_at := now + 86400
  let auth_token := AuthToken.mk addr now expires_at challenge.nonce
  let tokens1 := ainsert uuid auth_token st.tokens
  let challenges1 := aremove addr st.challenges
  let tokens2 := sweepBy AuthToken.expires_at now tokens1
  (AuthState.mk challenges1 tokens2,
    AuthResponse.mk true (some uuid) (some addr) (some expires_at) none)

/-- `WalletAuthService::authenticate` (src/backend/src/auth/wallet_auth.rs,
lines 110-215), run to completion without interleaving: the checks followed,
on success, by the commit writes. Every expected rejection is a returned
`AuthResponse`, never a hard error (the Rust function returns `Ok(_)` on all
these paths), which is why the embedded result type has no error component. -/
def authenticate (O : RecoveryOracle) (uuid : RStr) (now : Int)
    (st : AuthState) (req : AuthRequest) : AuthState × AuthResponse :=
  match authChecks O now st req with
  | (st1, .inl (addr, challenge)) => authCommit uuid now st1 addr challenge
  | (st1, .inr resp) => (st1, resp)

/-- `WalletAuthService::verify_token` (src/backend/src/auth/wallet_auth.rs,
lines 218-231): look the token up and return it iff `now <= expires_at`
(an expired-but-present token yields `none`). The Rust method only acquires
the read lock, which is why the embedding returns no state: it cannot mutate
either store. -/
def verify_token (now : Int) (st : AuthState) (token : RStr) :
    Option AuthToken :=
  match alookup st.tokens token with
  | some auth_token =>
    if now ≤ auth_token.expires_at then some auth_token else none
  | none => none

/-- `WalletAuthService::revoke_token` (src/backend/src/auth/wallet_auth.rs,
lines 234-240): remove the token, reporting whether it was present. -/
def revoke_token (st : AuthState) (token : RStr) : AuthState × Bool :=
  (AuthState.mk st.challenges (aremove token st.tokens),
    (alookup st.tokens token).isSome)

/-!
Interleaving model for concurrent `authenticate` calls.

Each task's `authenticate` is split into the atomic phases visible to the
shared stores: the challenge read (`authChecks`; its trailing pure work —
message comparison and signature recovery — runs on the task's private clone
of the challenge and holds no lock, so attaching it to the read step removes
no store-visible interleaving) and the commit writes (`authCommit`; the three
consecutive write-lock acquisitions are taken as one step, which only removes
interleavings, and every schedule of this coarser model is realizable in the
Rust code by running each merged section contiguously). Crucially, the read
lock of `challenges.read()` is shared, and it is released before any write
lock is taken: nothing in the code makes read-then-commit atomic.
-/

/-- The per-task progress of one in-flight `authenticate` call. -/
inductive Phase where
  | start
  | verified (addr : Addr) (challenge : AuthChallenge)
  | finished (resp : AuthResponse)
deriving DecidableEq

/-- The per-task inputs of one `authenticate` call. -/
structure TaskCfg where
  req : AuthRequest
  uuid : RStr
deriving DecidableEq

/-- One atomic step of an in-flight `authenticate` call against the shared
stores. -/
def taskStep (O : RecoveryOracle) (now : Int) (cfg : TaskCfg)
    (st : AuthState) (ph : Phase) : AuthState × Phase :=
  match ph with
  | .start =>
    match authChecks O now st cfg.req with
    | (st1, .inl (addr, challenge)) => (st1, .verified addr challenge)
    | (st1, .inr resp) => (st1, .finished resp)
  | .verified addr challenge =>
    let (st1, resp) := authCommit cfg.uuid now st addr challenge
    (st1, .finished resp)
  | .finished resp => (st, .finished resp)

/-- Run two concurrent `authenticate` calls A and B under a schedule: `true`
steps task A, `false` steps task B. -/
def runSched (O : RecoveryOracle) (now : Int) (cfgA cfgB : TaskCfg) :
    List Bool → AuthState → Phase → Phase → AuthState × Phase × Phase
  | [], st, pa, pb => (st, pa, pb)
  | b :: rest, st, pa, pb =>
    if b then
      let (st1, pa1) := taskStep O now cfgA st pa
      runSched O now cfgA cfgB rest st1 pa1 pb
    else
      let (st1, pb1) := taskStep O now cfgB st pb
      runSched O now cfgA cfgB rest st1 pa pb1

/-! Store lemmas. -/

theorem alookup_filter {α β : Type} [DecidableEq α] (p : α × β → Bool)
    (m : List (α × β)) (a : α) (b : β) (h : alookup m a = some b)
    (hp : p (a, b) = true) : alookup (m.filter p) a = some b := by
  induction m with
  | nil => simp [alookup] at h
  | cons kv rest ih =>
    by_cases hk : kv.1 = a
    · have hb : kv.2 = b := by
        simp [alookup, hk] at h
        exact h
      have hkv : kv = (a, b) := by
        cases kv
        simp_all
      subst hkv
      simp [List.filter, hp, alookup]
    · have h' : alookup rest a = some b := by
        simpa [alookup, hk] using h
      rcases hpk : p kv with _ | _
      · simp [List.filter, hpk, ih h']
      · simp [List.filter, hpk, alookup, hk, ih h']

theorem alookup_aremove_self {α β : Type} [DecidableEq α] (a : α)
    (m : List (α × β)) : alookup (aremove a m) a = none := by
  induction m with
  | nil => rfl
  | cons kv rest ih =>
    by_cases hk : kv.1 = a
    · simpa [aremove, List.filter, hk] using ih
    · simpa [aremove, List.filter, hk, alookup] using ih

theorem alookup_aremove_ne {α β : Type} [DecidableEq α] (a a' : α)
    (m : List (α × β)) (h : a' ≠ a) :
    alookup (aremove a m) a' = alookup m a' := by
  induction m with
  | nil => rfl
  | cons kv rest ih =>
    rcases kv with ⟨k, v⟩
    by_cases hk : k = a
    · subst hk
      simp only [aremove, List.filter_cons, decide_not] at ih ⊢
      simp [alookup, Ne.symm h, ih]
    · by_cases hk2 : k = a'
      · subst hk2
        simp [aremove, List.filter_cons, alookup, hk]
      · simp only [aremove, List.filter_cons, decide_not] at ih ⊢
        simp [alookup, hk, hk2, ih]

theorem alookup_ainsert_self {α β : Type} [DecidableEq α] (a : α) (b : β)
    (m : List (α × β)) : alookup (ainsert a b m) a = some b := by
  simp [ainsert, alookup]

theorem alookup_ainsert_ne {α β : Type} [DecidableEq α] (a a' : α) (b : β)
    (m : List (α × β)) (h : a' ≠ a) :
    alookup (ainsert a b m) a' = alookup m a' := by
  have h2 := alookup_aremove_ne a a' m h
  simp [ainsert, alookup, Ne.symm h, h2]

theorem alookup_sweepBy {α β : Type} [DecidableEq α] (expiry : β → Int)
    (now : Int) (m : List (α × β)) (a : α) (b : β)
    (h : alookup m a = some b) (hb : now ≤ expiry b) :
    alookup (sweepBy expiry now m) a = some b := by
  refine alookup_filter _ m a b h ?_
  simpa using hb

/-- C7: validate_message rejects exactly the empty message and any message
longer than 1000 bytes (the Rust `str::len` measure, which coincides with the
character count on ASCII messages), and accepts every other message; it is a
pure function of the message text, performing no cryptographic work (its
embedding takes no `RecoveryOracle`). -/
theorem validate_message_spec (m : RStr) :
    ((∃ e, validate_message m = Except.error e) ↔ (m = [] ∨ rustLen m > 1000)) ∧
    (validate_message m = Except.ok () ↔ (m ≠ [] ∧ rustLen m ≤ 1000)) := by
  unfold validate_message
  split_ifs with h1 h2 <;> simp_all

/-- Witness for C7 at concrete inputs: a short nonempty message is accepted,
and the theorem also decides the empty message. -/
theorem validate_message_spec_witness :
    validate_message "hi".toList = Except.ok () ∧
    (∃ e, validate_message [] = Except.error e) :=
  ⟨(validate_message_spec "hi".toList).2.mpr (by decide),
   (validate_message_spec []).1.mpr (by decide)⟩

/-- C4: verify_token returns the stored token exactly when the id is bound in
the token store and the token has not yet expired at lookup time (the code's
convention: valid while `now <= expires_at`, i.e. until the lookup happens
after `expires_at`); an expired-but-still-present token yields `none` while
remaining in the store (the embedding of this read-lock-only method returns no
state, so it can mutate neither store); and immediately after
`revoke_token id` the lookup of `id` yields `none`. -/
theorem verify_token_spec (now : Int) (st : AuthState) (token : RStr) :
    (∀ t, verify_token now st token = some t ↔
      (alookup st.tokens token = some t ∧ now ≤ t.expires_at)) ∧
    verify_token now (revoke_token st token).1 token = none := by
  constructor
  · intro t
    unfold verify_token
    cases h : alookup st.tokens token with
    | none => simp [h]
    | some t' =>
      by_cases ht : now ≤ t'.expires_at
      · constructor
        · intro he
          simp [ht] at he
          subst he
          exact ⟨rfl, ht⟩
        · rintro ⟨h1, h2⟩
          cases h1
          simp [ht]
      · constructor
        · intro he
          simp [ht] at he
        · rintro ⟨h1, h2⟩
          cases h1
          exact absurd h2 ht
  · unfold verify_token revoke_token
    simp [alookup_aremove_self]

/-- Witness for C4 at a concrete store: a live token is returned, the same
token expired is not, and a revoked token is not. -/
theorem verify_token_spec_witness :
    (verify_token 5 (AuthState.mk []
        [(['t'], AuthToken.mk [1] 0 10 ['n'])]) ['t'] =
      some (AuthToken.mk [1] 0 10 ['n'])) ∧
    (verify_token 11 (AuthState.mk []
        [(['t'], AuthToken.mk [1] 0 10 ['n'])]) ['t'] = none) ∧
    (verify_token 5 ((revoke_token (AuthState.mk []
        [(['t'], AuthToken.mk [1] 0 10 ['n'])]) ['t']).1) ['t'] = none) := by
  refine ⟨?_, ?_, ?_⟩
  · exact ((verify_token_spec 5 _ ['t']).1 _).mpr (by decide)
  · cases he : verify_token 11 (AuthState.mk []
        [(['t'], AuthToken.mk [1] 0 10 ['n'])]) ['t'] with
    | none => rfl
    | some t =>
      have := ((verify_token_spec 11 _ ['t']).1 t).mp he
      rcases this with ⟨h1, h2⟩
      simp [alookup] at h1
      subst h1
      exact absurd h2 (by decide)
  · exact (verify_token_spec 5 _ ['t']).2

/-- C3: authenticate never raises a hard error on an expected rejection path
(its embedded result type `AuthState × AuthResponse` has no error component,
mirroring that the Rust method returns `Ok(_)` on every such path), and the
tagged outcome is decided by checks in this fixed order: unparseable account
text; missing challenge; expired challenge (which deletes the stale challenge,
so the same payload immediately afterwards yields the no-challenge rejection);
message mismatch; cryptographic failure of recovery; recovered signer
different from the claimed account. -/
theorem authenticate_rejection_order (O : RecoveryOracle) (uuid : RStr)
    (now : Int) (st : AuthState) (req : AuthRequest) :
    (normalize_address req.address = none →
      authenticate O uuid now st req = (st, failResp invalidAddressMsg)) ∧
    (∀ a, normalize_address req.address = some a →
      alookup st.challenges a = none →
      authenticate O uuid now st req = (st, failResp noChallengeMsg)) ∧
    (∀ a ch, normalize_address req.address = some a →
      alookup st.challenges a = some ch → ch.expires_at < now →
      authenticate O uuid now st req =
        (AuthState.mk (aremove a st.challenges) st.tokens,
          failResp challengeExpiredMsg) ∧
      (authenticate O uuid now
        (AuthState.mk (aremove a st.challenges) st.tokens) req).2 =
        failResp noChallengeMsg) ∧
    (∀ a ch, normalize_address req.address = some a →
      alookup st.challenges a = some ch → ¬ ch.expires_at < now →
      req.message ≠ ch.message →
      authenticate O uuid now st req = (st, failResp messageMismatchMsg)) ∧
    (∀ a ch e, normalize_address req.address = some a →
      alookup st.challenges a = some ch → ¬ ch.expires_at < now →
      req.message = ch.message →
      verify_signature O req.message req.signature = .error e →
      authenticate O uuid now st req =
        (st, failResp (verificationFailedMsg e))) ∧
    (∀ a ch b, normalize_address req.address = some a →
      alookup st.challenges a = some ch → ¬ ch.expires_at < now →
      req.message = ch.message →
      verify_signature O req.message req.signature = .ok b → b ≠ a →
      authenticate O uuid now st req = (st, failResp invalidSignatureMsg)) := by
  refine ⟨?_, ?_, ?_, ?_, ?_, ?_⟩
  · intro h
    simp [authenticate, authChecks, h]
  · intro a h1 h2
    simp [authenticate, authChecks, h1, h2]
  · intro a ch h1 h2 h3
    constructor
    · simp [authenticate, authChecks, h1, h2, h3]
    · simp [authenticate, authChecks, h1, h2, h3, alookup_aremove_self]
  · intro a ch h1 h2 h3 h4
    simp [authenticate, authChecks, h1, h2, h3, h4]
  · intro a ch e h1 h2 h3 h4 h5
    rw [h4] at h5
    simp [authenticate, authChecks, verify_signature_for_address, h1, h2, h3,
      h4, h5]
  · intro a ch b h1 h2 h3 h4 h5 h6
    rw [h4] at h5
    simp [authenticate, authChecks, verify_signature_for_address, h1, h2, h3,
      h4, h5, h6]

deriving instance DecidableEq for Except

/-! Concrete fixtures used by the witnesses and counterexamples. -/

/-- The 20-byte address `0x1111…11`. -/
def addr0 : Addr := List.replicate 20 17

/-- The textual form of `addr0`. -/
def addrText0 : RStr := ['0', 'x'] ++ List.replicate 40 '1'

def msg0 : RStr := "m".toList

/-- A stored challenge for `addr0` expiring at time 300. -/
def ch0 : AuthChallenge := AuthChallenge.mk "n".toList msg0 addr0 0 300

/-- A state holding exactly the challenge `ch0` and no token. -/
def st0 : AuthState := AuthState.mk [(addr0, ch0)] []

/-- A well-formed 65-byte signature encoding with `r = s = 1` and final byte
`0x01` (a valid recovery id). -/
def sigGood : RStr :=
  ['0', 'x'] ++ (List.replicate 63 '0' ++ ['1']) ++
    (List.replicate 63 '0' ++ ['1']) ++ ['0', '1']

/-- An oracle standing for a secp256k1 recovery that yields `addr0`; such
recoveries exist (any honest signature by the key behind `addr0` produces
one). -/
def oracleConst : RecoveryOracle := RecoveryOracle.mk (fun _ _ _ => some addr0)

/-- An oracle standing for a secp256k1 recovery that fails (the signature's
`r` is not the x-coordinate of a curve point). -/
def oracleNone : RecoveryOracle := RecoveryOracle.mk (fun _ _ _ => none)

/-- Witness for C3 at concrete inputs: the invalid-address rejection, and the
expired-challenge rejection with its store side effect. -/
theorem authenticate_rejection_order_witness :
    authenticate oracleConst [] 0 st0 (AuthRequest.mk "bad".toList msg0 sigGood) =
      (st0, failResp invalidAddressMsg) ∧
    authenticate oracleConst [] 301 st0 (AuthRequest.mk addrText0 msg0 sigGood) =
      (AuthState.mk (aremove addr0 st0.challenges) st0.tokens,
        failResp challengeExpiredMsg) :=
  ⟨(authenticate_rejection_order oracleConst [] 0 st0
      (AuthRequest.mk "bad".toList msg0 sigGood)).1 (by decide),
   ((authenticate_rejection_order oracleConst [] 301 st0
      (AuthRequest.mk addrText0 msg0 sigGood)).2.2.1 addr0 ch0
      (by decide) (by decide) (by decide)).1⟩

/-- C2: on the success path (parseable account, stored unexpired challenge
with matching message, signature recovering the claimed account) authenticate
returns the success envelope carrying the fresh token id, the normalized
account and `now + 86400` (24 hours, a fixed duration independent of the
configured challenge TTL, which authenticate does not even consume), stores
under that id a token whose account is the normalized claimed account, whose
nonce is the consumed challenge's nonce and whose expiry is `now + 86400`,
and deletes the account's challenge from the challenge store. -/
theorem authenticate_success_token
    (O : RecoveryOracle) (uuid : RStr) (now : Int) (st : AuthState)
    (req : AuthRequest) (a : Addr) (ch : AuthChallenge)
    (h1 : normalize_address req.address = some a)
    (h2 : alookup st.challenges a = some ch)
    (h3 : ¬ ch.expires_at < now)
    (h4 : req.message = ch.message)
    (h5 : verify_signature O req.message req.signature = .ok a) :
    (authenticate O uuid now st req).2 =
      AuthResponse.mk true (some uuid) (some a) (some (now + 86400)) none ∧
    alookup (authenticate O uuid now st req).1.tokens uuid =
      some (AuthToken.mk a now (now + 86400) ch.nonce) ∧
    alookup (authenticate O uuid now st req).1.challenges a = none := by
  rw [h4] at h5
  have key : authenticate O uuid now st req = authCommit uuid now st a ch := by
    simp [authenticate, authChecks, verify_signature_for_address, h1, h2, h3,
      h4, h5]
  rw [key]
  unfold authCommit
  refine ⟨rfl, ?_, ?_⟩
  · exact alookup_sweepBy _ now _ uuid _ (alookup_ainsert_self _ _ _)
      (by show now ≤ now + 86400; omega)
  · exact alookup_aremove_self a st.challenges

/-- Witness for C2 at concrete inputs: authenticating against the stored
challenge of `st0` with a signature recovering `addr0` issues and stores the
expected token and consumes the challenge. -/
theorem authenticate_success_token_witness :
    (authenticate oracleConst ['t'] 0 st0
        (AuthRequest.mk addrText0 msg0 sigGood)).2 =
      AuthResponse.mk true (some ['t']) (some addr0) (some 86400) none ∧
    alookup (authenticate oracleConst ['t'] 0 st0
        (AuthRequest.mk addrText0 msg0 sigGood)).1.tokens ['t'] =
      some (AuthToken.mk addr0 0 86400 "n".toList) ∧
    alookup (authenticate oracleConst ['t'] 0 st0
        (AuthRequest.mk addrText0 msg0 sigGood)).1.challenges addr0 = none :=
  authenticate_success_token oracleConst ['t'] 0 st0
    (AuthRequest.mk addrText0 msg0 sigGood) addr0 ch0
    (by decide) (by decide) (by decide) (by decide) (by decide)

/-- C8: input errors mutate no state. An authenticate call rejected for an
unparseable account returns the state untouched; an authenticate call that
reaches signature verification and fails because the signature encoding is
malformed (non-hex text, or a decoded length other than 65 bytes) returns the
state untouched; and every create_challenge call that returns an error (the
only error paths are address normalization and message validation, both of
which precede the store write) returns the state untouched — so the caller
can retry with corrected input. -/
theorem input_errors_no_mutation :
    (∀ O uuid now st req, normalize_address req.address = none →
      authenticate O uuid now st req = (st, failResp invalidAddressMsg)) ∧
    (∀ O uuid now st req a ch,
      normalize_address req.address = some a →
      alookup st.challenges a = some ch → ¬ ch.expires_at < now →
      req.message = ch.message →
      (hexDecode (strip0x req.signature) = none ∨
        ∃ bs, hexDecode (strip0x req.signature) = some bs ∧ bs.length ≠ 65) →
      (authenticate O uuid now st req).1 = st ∧
      (authenticate O uuid now st req).2.success = false) ∧
    (∀ cfg x now st address,
      (∃ e, (create_challenge cfg x now st address).2 = Except.error e) →
      (create_challenge cfg x now st address).1 = st) := by
  refine ⟨?_, ?_, ?_⟩
  · intro O uuid now st req h
    simp [authenticate, authChecks, h]
  · intro O uuid now st req a ch h1 h2 h3 h4 h5
    have hv : ∃ e, verify_signature O req.message req.signature =
        Except.error e := by
      rcases h5 with h | ⟨bs, hbs, hlen⟩
      · exact ⟨GovernanceError.invalidSignature invalidHexMsg,
          by simp [verify_signature, h]⟩
      · exact ⟨GovernanceError.invalidSignature wrongLengthMsg,
          by simp [verify_signature, hbs, hlen]⟩
    rcases hv with ⟨e, he⟩
    rw [h4] at he
    have key : authenticate O uuid now st req =
        (st, failResp (verificationFailedMsg e)) := by
      simp [authenticate, authChecks, verify_signature_for_address, h1, h2,
        h3, h4, he]
    rw [key]
    exact ⟨rfl, rfl⟩
  · intro cfg x now st address h
    unfold create_challenge at *
    cases hn : normalize_address address with
    | none => simp
    | some addr =>
      cases hv : validate_message
          (create_sign_message (generate_nonce x) cfg.message_template) with
      | error e => simp [hn, hv]
      | ok u =>
        rcases h with ⟨e, he⟩
        simp [hn, hv] at he

/-- Witness for C8 at concrete inputs: a bad account text, a non-hex
signature against a live challenge, and a failing create_challenge all leave
the state untouched. -/
theorem input_errors_no_mutation_witness :
    authenticate oracleConst [] 0 st0
      (AuthRequest.mk "bad".toList msg0 sigGood) =
      (st0, failResp invalidAddressMsg) ∧
    ((authenticate oracleConst [] 0 st0
        (AuthRequest.mk addrText0 msg0 "0xzz".toList)).1 = st0 ∧
      (authenticate oracleConst [] 0 st0
        (AuthRequest.mk addrText0 msg0 "0xzz".toList)).2.success = false) ∧
    (create_challenge (AuthConfig.mk defaultTemplate 300) 0 0 st0
        "bad".toList).1 = st0 :=
  ⟨input_errors_no_mutation.1 oracleConst [] 0 st0
      (AuthRequest.mk "bad".toList msg0 sigGood) (by decide),
   input_errors_no_mutation.2.1 oracleConst [] 0 st0
      (AuthRequest.mk addrText0 msg0 "0xzz".toList) addr0 ch0
      (by decide) (by decide) (by decide) (by decide) (Or.inl (by decide)),
   input_errors_no_mutation.2.2 (AuthConfig.mk defaultTemplate 300) 0 0 st0
      "bad".toList ⟨GovernanceError.invalidSignature invalidAddressMsg,
        by decide⟩⟩


/-! Lemmas about replacement and containment of the placeholder. -/

theorem isPfx_refl (p : RStr) : isPfx p p = true := by
  induction p with
  | nil => rfl
  | cons a as ih => simp [isPfx, ih]

theorem isPfx_self_append (p u : RStr) : isPfx p (p ++ u) = true := by
  induction p with
  | nil => rfl
  | cons a as ih => simp [isPfx, ih]

theorem replaceAll_nil (pat rep : RStr) : replaceAll pat rep [] = [] := by
  rw [replaceAll.eq_def]

theorem replaceAll_cons (pat rep : RStr) (c : Char) (rest : RStr) :
    replaceAll pat rep (c :: rest) =
      if isPfx pat (c :: rest) = true ∧ pat ≠ [] then
        rep ++ replaceAll pat rep (List.drop pat.length (c :: rest))
      else c :: replaceAll pat rep rest := by
  rw [replaceAll.eq_def]
  rfl

theorem replaceAll_skip (p0 : Char) (ptl rep s u : RStr) (h : p0 ∉ s) :
    replaceAll (p0 :: ptl) rep (s ++ u) = s ++ replaceAll (p0 :: ptl) rep u := by
  induction s with
  | nil => simp
  | cons c s' ih =>
    have hne : p0 ≠ c := fun hc => h (by simp [hc])
    have hs' : p0 ∉ s' := fun hc => h (by simp [hc])
    have hpfx : isPfx (p0 :: ptl) (c :: (s' ++ u)) = false := by
      simp [isPfx, hne]
    rw [List.cons_append, replaceAll_cons, if_neg]
    · simp [ih hs']
    · rintro ⟨hc, -⟩
      rw [hpfx] at hc
      exact Bool.false_ne_true hc

theorem replaceAll_head (pat rep u : RStr) (h : pat ≠ []) :
    replaceAll pat rep (pat ++ u) = rep ++ replaceAll pat rep u := by
  rcases pat with _ | ⟨p0, ptl⟩
  · exact absurd rfl h
  · rw [List.cons_append, replaceAll_cons, if_pos]
    · rw [← List.cons_append]
      congr 1
      rw [List.drop_left]
    · constructor
      · rw [← List.cons_append]
        exact isPfx_self_append _ u
      · exact h

theorem containsSub_of_isPfx (p l : RStr) (h : isPfx p l = true) :
    containsSub p l = true := by
  cases l with
  | nil =>
    cases p with
    | nil => rfl
    | cons a as => simp [isPfx] at h
  | cons c rest => simp [containsSub, h]

theorem containsSub_append_right (p s u : RStr) (h : containsSub p u = true) :
    containsSub p (s ++ u) = true := by
  induction s with
  | nil => simpa using h
  | cons c s' ih => simp [containsSub, ih]

theorem containsSub_head_not_mem (p0 : Char) (ptl l : RStr) (h : p0 ∉ l) :
    containsSub (p0 :: ptl) l = false := by
  induction l with
  | nil => rfl
  | cons c rest ih =>
    have hne : p0 ≠ c := fun hc => h (by simp [hc])
    have hr : p0 ∉ rest := fun hc => h (by simp [hc])
    simp [containsSub, isPfx, hne, ih hr]

/-- The constant part of the default template, before the placeholder. -/
def defaultPrefix : RStr :=
  "Sign this message to authenticate with Somnia Governance Engine: ".toList

theorem default_template_split :
    defaultTemplate = defaultPrefix ++ noncePlaceholder := by decide

theorem noncePlaceholder_cons :
    noncePlaceholder = '\x7b' :: "nonce\x7d".toList := by decide

theorem brace_not_mem_defaultPrefix : '\x7b' ∉ defaultPrefix := by decide

/-- Rendering a nonce through the default template appends it to the constant
prefix. -/
theorem create_sign_message_default (nonce : RStr) :
    create_sign_message nonce defaultTemplate = defaultPrefix ++ nonce := by
  rw [create_sign_message, default_template_split]
  have h1 : defaultPrefix ++ noncePlaceholder =
      defaultPrefix ++ (noncePlaceholder ++ []) := by simp
  rw [h1, noncePlaceholder_cons]
  rw [replaceAll_skip _ _ _ _ _ brace_not_mem_defaultPrefix]
  rw [← noncePlaceholder_cons]
  rw [replaceAll_head _ _ _ (by decide)]
  rw [replaceAll_nil]
  simp

theorem hexDigitChar_ne_brace (n : Nat) : hexDigitChar n ≠ '\x7b' := by
  unfold hexDigitChar
  split <;> decide

theorem hexDigitChar_utf8Size (n : Nat) : (hexDigitChar n).utf8Size = 1 := by
  unfold hexDigitChar
  split <;> decide

theorem generate_nonce_length (x : Nat) : (generate_nonce x).length = 16 := by
  simp [generate_nonce, toHexFixed]

theorem mem_generate_nonce (x : Nat) (c : Char) (h : c ∈ generate_nonce x) :
    ∃ d, c = hexDigitChar d := by
  simp only [generate_nonce, toHexFixed, List.mem_map] at h
  rcases h with ⟨i, -, hi⟩
  exact ⟨_, hi.symm⟩

theorem brace_not_mem_generate_nonce (x : Nat) :
    '\x7b' ∉ generate_nonce x := by
  intro h
  rcases mem_generate_nonce x _ h with ⟨d, hd⟩
  exact hexDigitChar_ne_brace d hd.symm

/-- C9: template substitution is literal text replacement: for every nonce
produced by generate_nonce (always 16 hexadecimal characters), rendering it
through the default template produces a message that contains the nonce
verbatim (Rust `str::contains`) and contains no literal placeholder
occurrence. -/
theorem nonce_template_roundtrip (x : Nat) :
    (generate_nonce x).length = 16 ∧
    containsSub (generate_nonce x)
      (create_sign_message (generate_nonce x) defaultTemplate) = true ∧
    containsSub noncePlaceholder
      (create_sign_message (generate_nonce x) defaultTemplate) = false := by
  rw [create_sign_message_default]
  refine ⟨generate_nonce_length x, ?_, ?_⟩
  · refine containsSub_append_right _ _ _ ?_
    have h := isPfx_refl (generate_nonce x)
    exact containsSub_of_isPfx _ _ h
  · rw [noncePlaceholder_cons]
    refine containsSub_head_not_mem _ _ _ ?_
    intro h
    rcases List.mem_append.mp h with h | h
    · exact brace_not_mem_defaultPrefix h
    · exact brace_not_mem_generate_nonce x h

theorem rustLen_append (s t : RStr) :
    rustLen (s ++ t) = rustLen s + rustLen t := by
  simp [rustLen]

theorem rustLen_map_hexDigit (l : List Nat) :
    rustLen (l.map hexDigitChar) = l.length := by
  induction l with
  | nil => rfl
  | cons d rest ih =>
    simp [rustLen] at ih ⊢
    simp [hexDigitChar_utf8Size, ih]
    omega

theorem rustLen_generate_nonce (x : Nat) :
    rustLen (generate_nonce x) = 16 := by
  have h : generate_nonce x =
      (((List.range 16).reverse).map (fun i => x % 2 ^ 64 / 16 ^ i % 16)).map
        hexDigitChar := by
    simp [generate_nonce, toHexFixed, List.map_map]
  rw [h, rustLen_map_hexDigit]
  simp

theorem i64ofU64_nonneg (n : Nat) (h : n < 2 ^ 63) : 0 ≤ i64ofU64 n := by
  unfold i64ofU64
  split_ifs with h1 <;> omega

theorem default_message_valid (x : Nat) :
    validate_message (defaultPrefix ++ generate_nonce x) = .ok () := by
  have hne : defaultPrefix ++ generate_nonce x ≠ [] := by
    intro hc
    have := congrArg List.length hc
    simp [defaultPrefix] at this
  have hrl : rustLen (defaultPrefix ++ generate_nonce x) = 81 := by
    rw [rustLen_append, rustLen_generate_nonce]
    decide
  simp [validate_message, hne, hrl]

/-- C6: at most one live challenge per account. create_challenge stores the
new challenge by replacing any prior challenge of the same account
(`HashMap::insert`), and once the second challenge is issued, authenticating
with the first challenge's message fails with a message-mismatch (or
not-found) rejection rather than succeeding. Stated for the default template;
the nonces of the two challenges differ (the single-use-nonce assumption the
spec makes for distinct random draws). -/
theorem create_challenge_overwrite_invalidates
    (cfg : AuthConfig) (O : RecoveryOracle) (uuid : RStr) (x : Nat)
    (now : Int) (st : AuthState) (addrText sig : RStr) (a : Addr)
    (ch1 : AuthChallenge)
    (htmpl : cfg.message_template = defaultTemplate)
    (httl : cfg.signature_ttl < 2 ^ 63)
    (haddr : normalize_address addrText = some a)
    (h1 : alookup st.challenges a = some ch1)
    (hm1 : ch1.message = create_sign_message ch1.nonce defaultTemplate)
    (hx : generate_nonce x ≠ ch1.nonce) :
    ∃ st2 resp2,
      create_challenge cfg x now st addrText = (st2, Except.ok resp2) ∧
      alookup st2.challenges a = some (AuthChallenge.mk (generate_nonce x)
        (defaultPrefix ++ generate_nonce x) a now
        (now + i64ofU64 cfg.signature_ttl)) ∧
      (authenticate O uuid now st2
        (AuthRequest.mk addrText ch1.message sig)).2.success = false ∧
      ((authenticate O uuid now st2
          (AuthRequest.mk addrText ch1.message sig)).2.error =
          some messageMismatchMsg ∨
        (authenticate O uuid now st2
          (AuthRequest.mk addrText ch1.message sig)).2.error =
          some noChallengeMsg) := by
  have hnn : 0 ≤ i64ofU64 cfg.signature_ttl := i64ofU64_nonneg _ httl
  have hmsg : create_sign_message (generate_nonce x) cfg.message_template =
      defaultPrefix ++ generate_nonce x := by
    rw [htmpl, create_sign_message_default]
  have hvld : validate_message
      (create_sign_message (generate_nonce x) cfg.message_template) =
      .ok () := by
    rw [hmsg]
    exact default_message_valid x
  have hkey : create_challenge cfg x now st addrText =
      (AuthState.mk (sweepBy AuthChallenge.expires_at now
          (ainsert a (AuthChallenge.mk (generate_nonce x)
            (defaultPrefix ++ generate_nonce x) a now
            (now + i64ofU64 cfg.signature_ttl)) st.challenges)) st.tokens,
        Except.ok (ChallengeResponse.mk (generate_nonce x)
          (defaultPrefix ++ generate_nonce x)
          (now + i64ofU64 cfg.signature_ttl))) := by
    simp [create_challenge, haddr, hmsg, default_message_valid x]
  have halo2 : alookup (sweepBy AuthChallenge.expires_at now
      (ainsert a (AuthChallenge.mk (generate_nonce x)
        (defaultPrefix ++ generate_nonce x) a now
        (now + i64ofU64 cfg.signature_ttl)) st.challenges)) a =
      some (AuthChallenge.mk (generate_nonce x)
        (defaultPrefix ++ generate_nonce x) a now
        (now + i64ofU64 cfg.signature_ttl)) := by
    refine alookup_sweepBy _ now _ a _ (alookup_ainsert_self _ _ _) ?_
    show now ≤ now + i64ofU64 cfg.signature_ttl
    omega
  have hnemsg : ch1.message ≠ defaultPrefix ++ generate_nonce x := by
    rw [hm1, create_sign_message_default]
    intro hc
    exact hx (List.append_cancel_left hc).symm
  have hauth : authenticate O uuid now (AuthState.mk
      (sweepBy AuthChallenge.expires_at now
        (ainsert a (AuthChallenge.mk (generate_nonce x)
          (defaultPrefix ++ generate_nonce x) a now
          (now + i64ofU64 cfg.signature_ttl)) st.challenges)) st.tokens)
      (AuthRequest.mk addrText ch1.message sig) =
      (AuthState.mk (sweepBy AuthChallenge.expires_at now
        (ainsert a (AuthChallenge.mk (generate_nonce x)
          (defaultPrefix ++ generate_nonce x) a now
          (now + i64ofU64 cfg.signature_ttl)) st.challenges)) st.tokens,
        failResp messageMismatchMsg) := by
    have hexp : ¬ (now + i64ofU64 cfg.signature_ttl < now) := by omega
    simp [authenticate, authChecks, haddr, halo2, hexp, hnemsg]
  exact ⟨_, _, hkey, halo2, by rw [hauth]; rfl, Or.inl (by rw [hauth]; rfl)⟩

/-- Nonce of the first challenge in the C6 witness. -/
def nonce1 : RStr := List.replicate 16 '1'

/-- First challenge of the C6 witness: rendered from the default template. -/
def ch1w : AuthChallenge :=
  AuthChallenge.mk nonce1 (create_sign_message nonce1 defaultTemplate) addr0 0 300

/-- State holding the first challenge of the C6 witness. -/
def st1w : AuthState := AuthState.mk [(addr0, ch1w)] []

/-- Witness for C6 at concrete inputs: issuing a second challenge for `addr0`
(random draw 0, hence nonce `0000000000000000`) overwrites the stored
challenge with nonce `1111111111111111`, and authenticating with the first
challenge's message is rejected. -/
theorem create_challenge_overwrite_invalidates_witness :
    ∃ st2 resp2,
      create_challenge (AuthConfig.mk defaultTemplate 300) 0 0 st1w addrText0 =
        (st2, Except.ok resp2) ∧
      alookup st2.challenges addr0 = some (AuthChallenge.mk (generate_nonce 0)
        (defaultPrefix ++ generate_nonce 0) addr0 0 (0 + i64ofU64 300)) ∧
      (authenticate oracleConst [] 0 st2
        (AuthRequest.mk addrText0 ch1w.message sigGood)).2.success = false ∧
      ((authenticate oracleConst [] 0 st2
          (AuthRequest.mk addrText0 ch1w.message sigGood)).2.error =
          some messageMismatchMsg ∨
        (authenticate oracleConst [] 0 st2
          (AuthRequest.mk addrText0 ch1w.message sigGood)).2.error =
          some noChallengeMsg) :=
  create_challenge_overwrite_invalidates (AuthConfig.mk defaultTemplate 300)
    oracleConst [] 0 0 st1w addrText0 sigGood addr0 ch1w rfl (by decide)
    (by decide) (by simp [st1w, alookup]) rfl (by decide)

/-! Characterization of hex decoding, for the signature-format pre-check. -/

theorem hexVal_isSome (c : Char) : (hexVal c).isSome = isAsciiHexDigit c := by
  unfold hexVal isAsciiHexDigit
  split_ifs with h1 h2 h3 <;> simp_all

theorem utf8Size_of_hex (c : Char) (h : isAsciiHexDigit c = true) :
    c.utf8Size = 1 := by
  have hv : c.toNat ≤ 102 := by
    unfold isAsciiHexDigit at h
    simp at h
    rcases h with h | h | h <;> omega
  have hle : c.val ≤ 127 := by
    rw [UInt32.le_def, BitVec.le_def]
    show c.toNat ≤ 127
    omega
  unfold Char.utf8Size
  simp [hle]

theorem hexDecode_spec (l : RStr) :
    (((hexDecode l).isSome = true) ↔
      (l.length % 2 = 0 ∧ ∀ c ∈ l, isAsciiHexDigit c = true)) ∧
    (∀ bs, hexDecode l = some bs → l.length = 2 * bs.length) := by
  induction l using hexDecode.induct with
  | case1 => simp [hexDecode]
  | case2 c => simp [hexDecode]
  | case3 c1 c2 rest hi lo bs hdr hc2v hc1v ih =>
    have hsome : hexDecode (c1 :: c2 :: rest) = some ((16 * hi + lo) :: bs) := by
      simp only [hexDecode]
      rw [hc1v, hc2v, hdr]
    have hrest := ih.1.mp (by simp [hdr])
    have hc1 : isAsciiHexDigit c1 = true := by
      rw [← hexVal_isSome, hc1v]
      rfl
    have hc2 : isAsciiHexDigit c2 = true := by
      rw [← hexVal_isSome, hc2v]
      rfl
    constructor
    · simp only [hsome]
      constructor
      · intro _
        refine ⟨by simp [List.length_cons]; omega, ?_⟩
        intro c hc
        simp only [List.mem_cons] at hc
        rcases hc with rfl | rfl | hc
        · exact hc1
        · exact hc2
        · exact hrest.2 c hc
      · intro _
        rfl
    · intro bs2 h2
      rw [hsome] at h2
      cases h2
      have := ih.2 bs hdr
      simp [List.length_cons, this]
      omega
  | case4 c1 c2 rest h ih =>
    have hnone : hexDecode (c1 :: c2 :: rest) = none := by
      rcases hc1 : hexVal c1 with _ | hi
      · simp [hexDecode, hc1]
      · rcases hc2 : hexVal c2 with _ | lo
        · simp [hexDecode, hc1, hc2]
        · rcases hdr : hexDecode rest with _ | bs
          · simp [hexDecode, hc1, hc2, hdr]
          · exact (h hi lo bs hc1 hc2 hdr).elim
    constructor
    · rw [hnone]
      simp only [Option.isSome_none]
      constructor
      · intro hfalse
        exact absurd hfalse (by simp)
      · rintro ⟨heven, hhex⟩
        exfalso
        have hc1 : (hexVal c1).isSome = true := by
          rw [hexVal_isSome]
          exact hhex c1 (by simp)
        have hc2 : (hexVal c2).isSome = true := by
          rw [hexVal_isSome]
          exact hhex c2 (by simp)
        have hrest : (hexDecode rest).isSome = true := by
          refine ih.1.mpr ⟨?_, ?_⟩
          · simp [List.length_cons] at heven
            omega
          · intro c hc
            exact hhex c (by simp [hc])
        rcases Option.isSome_iff_exists.mp hc1 with ⟨hi, hhi⟩
        rcases Option.isSome_iff_exists.mp hc2 with ⟨lo, hlo⟩
        rcases Option.isSome_iff_exists.mp hrest with ⟨bs, hbs⟩
        exact h hi lo bs hhi hlo hbs
    · intro bs2 h2
      rw [hnone] at h2
      exact absurd h2 (by simp)

theorem rustLen_eq_length_of_hex (l : RStr)
    (h : ∀ c ∈ l, isAsciiHexDigit c = true) : rustLen l = l.length := by
  induction l with
  | nil => rfl
  | cons c t ih =>
    have hc := utf8Size_of_hex c (h c (by simp))
    have ht := ih (fun c2 hc2 => h c2 (by simp [hc2]))
    simp [rustLen] at ht ⊢
    simp [hc, ht]
    omega

/-- C10: the fast pre-check is_valid_signature_format accepts a signature
text exactly when stripping one optional `0x` prefix leaves 130 ASCII hex
digits, which is exactly the condition under which verify_signature's hex
decoding stage yields 65 bytes; consequently every signature rejected by the
pre-check makes verify_signature fail with an InvalidSignature error, for
every message and every recovery oracle. -/
theorem signature_format_iff_decode (s : RStr) :
    (is_valid_signature_format s = true ↔
      ∃ bs, hexDecode (strip0x s) = some bs ∧ bs.length = 65) ∧
    (∀ O m, is_valid_signature_format s = false →
      ∃ reason, verify_signature O m s =
        Except.error (.invalidSignature reason)) := by
  have hmain : is_valid_signature_format s = true ↔
      ∃ bs, hexDecode (strip0x s) = some bs ∧ bs.length = 65 := by
    unfold is_valid_signature_format
    simp only [Bool.and_eq_true, decide_eq_true_eq, List.all_eq_true]
    constructor
    · rintro ⟨hlen, hhex⟩
      have hhex' : ∀ c ∈ strip0x s, isAsciiHexDigit c = true := hhex
      have hlen' : (strip0x s).length = 130 := by
        rw [← rustLen_eq_length_of_hex _ hhex']
        exact hlen
      have hsome : (hexDecode (strip0x s)).isSome = true :=
        (hexDecode_spec (strip0x s)).1.mpr ⟨by omega, hhex'⟩
      rcases Option.isSome_iff_exists.mp hsome with ⟨bs, hbs⟩
      refine ⟨bs, hbs, ?_⟩
      have := (hexDecode_spec (strip0x s)).2 bs hbs
      omega
    · rintro ⟨bs, hbs, hlen⟩
      have hsome : (hexDecode (strip0x s)).isSome = true := by simp [hbs]
      have hhex := ((hexDecode_spec (strip0x s)).1.mp hsome).2
      have hlen2 := (hexDecode_spec (strip0x s)).2 bs hbs
      refine ⟨?_, hhex⟩
      rw [rustLen_eq_length_of_hex _ hhex]
      omega
  refine ⟨hmain, ?_⟩
  intro O m hfalse
  rcases hd : hexDecode (strip0x s) with _ | bs
  · exact ⟨invalidHexMsg, by simp [verify_signature, hd]⟩
  · have hlen : bs.length ≠ 65 := by
      intro hc
      rw [hmain.mpr ⟨bs, hd, hc⟩] at hfalse
      simp at hfalse
    exact ⟨wrongLengthMsg, by simp [verify_signature, hd, hlen]⟩

/-- Witness for C10 at concrete inputs: the valid 65-byte encoding `sigGood`
passes the pre-check, and the non-hex text `0xzz` makes verify_signature
fail. -/
theorem signature_format_iff_decode_witness :
    is_valid_signature_format sigGood = true ∧
    (∃ reason, verify_signature oracleConst msg0 "0xzz".toList =
      Except.error (.invalidSignature reason)) :=
  ⟨(signature_format_iff_decode sigGood).1.mpr
      ⟨List.replicate 31 0 ++ [1] ++ List.replicate 31 0 ++ [1, 1],
        by decide, by decide⟩,
   (signature_format_iff_decode "0xzz".toList).2 oracleConst msg0 (by decide)⟩

/-- A 65-byte-decoding signature with `r = s = 1` whose final byte is `0x04`,
which is not a valid recovery indicator (valid ids are 0-3). -/
def sigBadV : RStr :=
  ['0', 'x'] ++ (List.replicate 63 '0' ++ ['1']) ++
    (List.replicate 63 '0' ++ ['1']) ++ ['0', '4']

/-- C5 counterexample: a 65-byte signature whose final byte (4) is not a
valid recovery indicator does not make verify_signature fail — the code calls
`RecoveryId::from_u8_masked`, which reduces the byte mod 4 without ever
rejecting it, and recovery proceeds, here returning an address. The oracle
stands for the real secp256k1 recovery at recid `4 % 4 = 0` with
`r = s = 1`, which does succeed on the real curve: `x = 1` is on secp256k1
because `1³ + 7 = 8 = 2³` is a quadratic residue mod p (p ≡ 7 mod 8 makes 2 a
residue), and the recovered point `r⁻¹(sR - zG) = R - zG` is not the point at
infinity for this message hash. -/
theorem masked_recovery_byte_counterexample :
    (∃ bs, hexDecode (strip0x sigBadV) = some bs ∧ bs.length = 65 ∧
      bs.getD 64 0 = 4 ∧ ¬ bs.getD 64 0 < 4) ∧
    verify_signature oracleConst msg0 sigBadV = Except.ok addr0 := by
  refine ⟨⟨List.replicate 31 0 ++ [1] ++ List.replicate 31 0 ++ [1, 4],
    by decide, by decide, by decide, by decide⟩, by decide⟩

/-- C5 (amended): the final signature byte is never validated as a recovery
indicator (`from_u8_masked` reduces it mod 4), so no input fails on it; for a
65-byte-decoding signature the recovery-stage failures are exactly: an `(r, s)`
component outside the secp256k1 scalar range, rejected by
`RecoverableSignature::from_compact` with `InvalidSignature("Invalid signature
format")`, and an in-range signature on which curve recovery finds no point,
rejected with `InvalidSignature("Failed to recover public key")`; in both
cases no address is recovered. -/
theorem verify_signature_recovery_failure_modes
    (O : RecoveryOracle) (m s : RStr) (bs : List Nat)
    (hd : hexDecode (strip0x s) = some bs) (hl : bs.length = 65) :
    (secpOrder ≤ beNat (bs.take 32) ∨
        secpOrder ≤ beNat ((bs.drop 32).take 32) →
      verify_signature O m s =
        Except.error (.invalidSignature fromCompactMsg)) ∧
    (¬ (secpOrder ≤ beNat (bs.take 32) ∨
        secpOrder ≤ beNat ((bs.drop 32).take 32)) →
      O.recover m (bs.take 64) (bs.getD 64 0 % 4) = none →
      verify_signature O m s =
        Except.error (.invalidSignature recoveryFailedMsg)) := by
  constructor
  · intro hrs
    simp [verify_signature, hd, hl, hrs]
  · intro hrs hrec
    rw [List.getD_eq_getElem bs 0 (by omega)] at hrec
    simp [verify_signature, hd, hl, hrs, hrec]

/-- A 65-byte-decoding signature whose `r` (2^256 - 1) exceeds the secp256k1
scalar range. -/
def sigFF : RStr :=
  ['0', 'x'] ++ List.replicate 64 'f' ++
    (List.replicate 63 '0' ++ ['1']) ++ ['0', '1']

/-- The bytes `sigGood` decodes to. -/
def sigGoodBytes : List Nat :=
  List.replicate 31 0 ++ [1] ++ List.replicate 31 0 ++ [1, 1]

/-- Witness for the amended C5 at concrete inputs: an out-of-range `r` is
rejected by the from_compact stage, and an in-range signature on which
recovery finds no curve point is rejected by the recovery stage. -/
theorem verify_signature_recovery_failure_modes_witness :
    verify_signature oracleConst msg0 sigFF =
      Except.error (.invalidSignature fromCompactMsg) ∧
    verify_signature oracleNone msg0 sigGood =
      Except.error (.invalidSignature recoveryFailedMsg) :=
  ⟨(verify_signature_recovery_failure_modes oracleConst msg0 sigFF
      (List.replicate 32 255 ++ List.replicate 31 0 ++ [1, 1])
      (by decide) (by decide)).1 (by decide),
   (verify_signature_recovery_failure_modes oracleNone msg0 sigGood
      sigGoodBytes (by decide) (by decide)).2 (by decide) rfl⟩

/-- C1 (refuted by the code — the claimed critical section does not exist):
under the schedule A-read, B-read, A-commit, B-commit, two concurrent
authenticate calls for the same account against the same stored challenge
BOTH succeed, each storing its own token from the one challenge. The read of
the challenge store happens under a shared read lock that is released before
any write lock is taken, so both tasks can pass every check against their
private clones of the same challenge before either commits; the second
challenge removal is a no-op and no code path detects the double spend.
This contradicts the claim that exactly one of the two calls succeeds. -/
theorem authenticate_interleaved_double_success
    (O : RecoveryOracle) (now : Int) (st : AuthState) (req : AuthRequest)
    (uuidA uuidB : RStr) (a : Addr) (ch : AuthChallenge)
    (h1 : normalize_address req.address = some a)
    (h2 : alookup st.challenges a = some ch)
    (h3 : ¬ ch.expires_at < now)
    (h4 : req.message = ch.message)
    (h5 : verify_signature O req.message req.signature = Except.ok a)
    (h6 : uuidA ≠ uuidB) :
    ∃ stf,
      runSched O now (TaskCfg.mk req uuidA) (TaskCfg.mk req uuidB)
        [true, false, true, false] st .start .start =
        (stf,
          .finished (AuthResponse.mk true (some uuidA) (some a)
            (some (now + 86400)) none),
          .finished (AuthResponse.mk true (some uuidB) (some a)
            (some (now + 86400)) none)) ∧
      alookup stf.tokens uuidA =
        some (AuthToken.mk a now (now + 86400) ch.nonce) ∧
      alookup stf.tokens uuidB =
        some (AuthToken.mk a now (now + 86400) ch.nonce) := by
  rw [h4] at h5
  have hchk : authChecks O now st req = (st, .inl (a, ch)) := by
    simp [authChecks, verify_signature_for_address, h1, h2, h3, h4, h5]
  have hle : now ≤ now + 86400 := by omega
  refine ⟨AuthState.mk
      (aremove a (AuthState.mk (aremove a st.challenges)
        (sweepBy AuthToken.expires_at now (ainsert uuidA
          (AuthToken.mk a now (now + 86400) ch.nonce) st.tokens))).challenges)
      (sweepBy AuthToken.expires_at now (ainsert uuidB
        (AuthToken.mk a now (now + 86400) ch.nonce)
        (AuthState.mk (aremove a st.challenges)
          (sweepBy AuthToken.expires_at now (ainsert uuidA
            (AuthToken.mk a now (now + 86400) ch.nonce)
            st.tokens))).tokens)), ?_, ?_, ?_⟩
  · simp [runSched, taskStep, hchk, authCommit]
  · show alookup (sweepBy AuthToken.expires_at now (ainsert uuidB
      (AuthToken.mk a now (now + 86400) ch.nonce)
      (sweepBy AuthToken.expires_at now (ainsert uuidA
        (AuthToken.mk a now (now + 86400) ch.nonce) st.tokens)))) uuidA =
      some (AuthToken.mk a now (now + 86400) ch.nonce)
    have ha1 : alookup (sweepBy AuthToken.expires_at now (ainsert uuidA
        (AuthToken.mk a now (now + 86400) ch.nonce) st.tokens)) uuidA =
        some (AuthToken.mk a now (now + 86400) ch.nonce) :=
      alookup_sweepBy _ now _ uuidA _ (alookup_ainsert_self _ _ _) hle
    have ha2 := alookup_ainsert_ne uuidB uuidA
      (AuthToken.mk a now (now + 86400) ch.nonce)
      (sweepBy AuthToken.expires_at now (ainsert uuidA
        (AuthToken.mk a now (now + 86400) ch.nonce) st.tokens)) h6
    rw [ha1] at ha2
    exact alookup_sweepBy _ now _ uuidA _ ha2 hle
  · exact alookup_sweepBy _ now _ uuidB _ (alookup_ainsert_self _ _ _) hle

/-- Witness for C1 at concrete inputs: both interleaved calls against the one
stored challenge of `st0` succeed and both tokens are stored. -/
theorem authenticate_interleaved_double_success_witness :
    ∃ stf,
      runSched oracleConst 0
        (TaskCfg.mk (AuthRequest.mk addrText0 msg0 sigGood) ['a'])
        (TaskCfg.mk (AuthRequest.mk addrText0 msg0 sigGood) ['b'])
        [true, false, true, false] st0 .start .start =
        (stf,
          .finished (AuthResponse.mk true (some ['a']) (some addr0)
            (some 86400) none),
          .finished (AuthResponse.mk true (some ['b']) (some addr0)
            (some 86400) none)) ∧
      alookup stf.tokens ['a'] =
        some (AuthToken.mk addr0 0 86400 "n".toList) ∧
      alookup stf.tokens ['b'] =
        some (AuthToken.mk addr0 0 86400 "n".toList) :=
  authenticate_interleaved_double_success oracleConst 0 st0
    (AuthRequest.mk addrText0 msg0 sigGood) ['a'] ['b'] addr0 ch0
    (by decide) (by decide) (by decide) (by decide) (by decide) (by decide)
